import Mathlib

/-!
Verification of the pi-sound-logger acoustic pipeline.

This file shallowly embeds the parts of the source relevant to the frozen
claims: the per-second sampler loop (`acquisition/acoustic_stream.py`), the
timestamp provider (`acquisition/help_functions/timestamp_provider.py`), the
LAeq / LAF / Lden aggregators
(`aggregation/acoustic_aggregator/laeq_aggregator.py`, `laf_aggregator.py`),
the ISO 1996-2 Annex G uncertainty calculator (`incertitude_calculator.py`),
the interval scheduler (`aggregation/time_manager.py`) and the MySQL-to-Mongo
synchroniser (`database/mongodb/data_sync_manager.py`).

Python floats stored in the database are embedded as rationals (every finite
IEEE double is rational); values produced by logarithms are embedded as real
numbers.  Database reads become explicit inputs, awaits and sleeps are
no-ops for the functional claims, and Python exceptions are modelled with
an explicit `Except` error type.  Rounding `round(x, 2)` is modelled as
rounding `100 * x` to the nearest integer and dividing by `100`.
-/

namespace PiSoundLogger

/-! ## Python value model -/

/-- A Python float as stored in or read from a database column: either a
finite value (embedded as a rational) or one of the non-finite floats.
`numpy.isfinite` is true exactly on the `num` constructor. -/
inductive PyVal where
  | num (q : ℚ)
  | nan
  | inf
  | ninf
deriving DecidableEq, Repr

/-- `values[np.isfinite(values)]`: keep the finite entries, in order. -/
def finiteVals (l : List PyVal) : List ℚ :=
  l.filterMap fun v =>
    match v with
    | .num q => some q
    | _ => none

/-- Python `round(x, 2)` on a rational: round `100 * x` to the nearest
integer and divide by `100` (ties are irrelevant to every concrete value in
this development). -/
def round2q (x : ℚ) : ℚ := (round (100 * x) : ℤ) / 100

/-- Python `round(x, 2)` on a real result. -/
noncomputable def round2 (x : ℝ) : ℝ := ((round (100 * x) : ℤ) : ℝ) / 100

/-- Python errors that the embedded code can raise. -/
inductive PyErr where
  | typeError
  | valueError
deriving DecidableEq, Repr

/-! ## TimestampProvider (acquisition/help_functions/timestamp_provider.py)

`get_next_second_sleep_time` returns `1.0 - (now % 1.0)` where `now` is the
POSIX timestamp of the current instant.  Python `x % 1.0` is `x - ⌊x⌋`, the
fractional part, for every sign of `x`. -/

/-- `TimestampProvider.get_next_second_sleep_time`, source lines 43-50:
`return 1.0 - (now % 1.0)`. -/
def TimestampProvider.get_next_second_sleep_time (now : ℚ) : ℚ :=
  1 - Int.fract now

/-! ## numpy percentile (linear interpolation)

`np.percentile(values, q)` with the default linear interpolation: on the
ascending sort of the data, the virtual rank is `q/100 * (n-1)`; the result
interpolates linearly between the floor and ceiling ranks. -/

/-- `np.percentile` on an already ascending-sorted list (default linear
interpolation between ranks). -/
def numpyPercentile (sorted : List ℚ) (q : ℚ) : ℚ :=
  let n := sorted.length
  let r := q * ((n : ℚ) - 1) / 100
  let i := (⌊r⌋).toNat
  let lo := sorted.getD i 0
  let hi := sorted.getD (i + 1) lo
  lo + (r - (⌊r⌋ : ℚ)) * (hi - lo)

/-- The five percentile columns of a `LAF_percentiles_*` row. -/
structure Percentiles where
  L5 : ℚ
  L10 : ℚ
  L50 : ℚ
  L90 : ℚ
  L95 : ℚ
deriving DecidableEq, Repr

/-- `LAFAggregator.calculate_percentiles`, laf_aggregator.py lines 112-131:
return `None` on an empty input; drop non-finite values and return `None`
when nothing is left; otherwise assign
`L5, L10, L50, L90, L95 := round(np.percentile(values, [95, 90, 50, 10, 5]), 2)`. -/
def LAFAggregator.calculate_percentiles (values : List PyVal) : Option Percentiles :=
  if values.isEmpty then none
  else
    let vals := finiteVals values
    if vals.length = 0 then none
    else
      let sorted := List.insertionSort (· ≤ ·) vals
      some
        { L5 := round2q (numpyPercentile sorted 95)
          L10 := round2q (numpyPercentile sorted 90)
          L50 := round2q (numpyPercentile sorted 50)
          L90 := round2q (numpyPercentile sorted 10)
          L95 := round2q (numpyPercentile sorted 5) }

/-! ## LAeq (acquisition/help_functions/average.py and laeq_aggregator.py) -/

/-- Sampler-side `calculate_laeq`, acquisition/help_functions/average.py
lines 3-25: `None` on an empty input, drop non-finite values, `None` when
nothing is left, else `round(10 * log10(sum(10 ** (levels / 10)) / T), 2)`. -/
noncomputable def Acquisition.calculate_laeq (sound_levels : List PyVal) : Option ℝ :=
  if sound_levels.isEmpty then none
  else
    let levels := finiteVals sound_levels
    if levels.length = 0 then none
    else
      some (round2 (10 * Real.logb 10
        ((levels.map fun v => (10 : ℝ) ^ (((v : ℝ)) / 10)).sum / (levels.length : ℝ))))

/-- Aggregator-side `LAeqAggregator.calculate_laeq`, laeq_aggregator.py lines
243-262: with `T = len(sound_levels)`, if `T > 0` return
`round(10 * np.log10(np.sum(10 ** (sound_levels / 10)) / T), 2)`, else `None`.
No finiteness filter (the aggregator reads already validated rows). -/
noncomputable def LAeqAggregator.calculate_laeq (sound_levels : List ℚ) : Option ℝ :=
  if 0 < sound_levels.length then
    some (round2 (10 * Real.logb 10
      ((sound_levels.map fun v => (10 : ℝ) ^ (((v : ℝ)) / 10)).sum / (sound_levels.length : ℝ))))
  else none

/-! ## Lden (laeq_aggregator.py)

The regulatory maxima `lday_ro`, `levening_ro`, `lnight_ro` are accumulated
starting from `float('-inf')`, so a value flowing into `calculate_lden` is
either negative infinity or a real number.  `10 ** ((-inf + s) / 10)` is
`0.0` in Python and `np.log10(0.0)` is `-inf`, which `round` maps to itself. -/

/-- A Python float that is either negative infinity or finite-or-real:
exactly the values the Lden computation manipulates. -/
inductive PyF where
  | neginf
  | val (x : ℝ)

/-- Add a constant dB penalty: `-inf + s = -inf`. -/
noncomputable def PyF.addF (s : ℝ) : PyF → PyF
  | .neginf => .neginf
  | .val x => .val (x + s)

/-- `10 ** (x / 10)`: zero at negative infinity. -/
noncomputable def PyF.pow10div10 : PyF → ℝ
  | .neginf => 0
  | .val x => (10 : ℝ) ^ (x / 10)

/-- `round(x, 2)` extended to negative infinity. -/
noncomputable def PyF.roundTo2 : PyF → PyF
  | .neginf => .neginf
  | .val x => .val (round2 x)

/-- `10 * np.log10 y` for the non-negative energy sum `y` of
`calculate_lden`: `-inf` at zero (numpy warns and yields `-inf`). -/
noncomputable def tenLog10 (y : ℝ) : PyF :=
  if y = 0 then .neginf else .val (10 * Real.logb 10 y)

/-- `LAeqAggregator.calculate_lden`, laeq_aggregator.py lines 229-241: when no
argument is `None`, return
`round(10 * np.log10(12/24 * 10^(lday/10) + 4/24 * 10^((levening+5)/10)
+ 8/24 * 10^((lnight+10)/10)), 2)`; otherwise `None`. -/
noncomputable def LAeqAggregator.calculate_lden
    (lday levening lnight : Option PyF) : Option PyF :=
  match lday, levening, lnight with
  | some d, some e, some n =>
      some (PyF.roundTo2 (tenLog10
        (12 / 24 * d.pow10div10 + 4 / 24 * (e.addF 5).pow10div10
          + 8 / 24 * (n.addF 10).pow10div10)))
  | _, _, _ => none

/-! ## Table model for the Lden pipeline (laeq_aggregator.py)

A source table is a list of `(timestamp, value)` rows.  Timestamps are
minutes relative to the 24h boundary `start_time` (midnight); the night
range reaches into the previous day, so they are integers (`23:00`
yesterday is `-60`).  `fetch_records` (value_aggregator.py lines 21-32) and
`fetch_records_with_timestamps` (laeq_aggregator.py lines 216-227) select
rows with `timestamp >= start AND timestamp <= end`; the SQL ordering is
immaterial to the properties proved here. -/

/-- A local MySQL table: `(timestamp, value)` rows. -/
def Table := List (ℤ × ℚ)

/-- `ValueAggregator.fetch_records`: the values whose timestamp lies in the
inclusive range. -/
def fetch_records (tbl : Table) (start_time end_time : ℤ) : List ℚ :=
  (List.filter (fun r => decide (start_time ≤ r.1 ∧ r.1 ≤ end_time)) tbl).map (·.2)

/-- `LAeqAggregator.fetch_records_with_timestamps`: `(value, timestamp)`
pairs in the inclusive range. -/
def fetch_records_with_timestamps (tbl : Table) (start_time end_time : ℤ) :
    List (ℚ × ℤ) :=
  (List.filter (fun r => decide (start_time ≤ r.1 ∧ r.1 ≤ end_time)) tbl).map
    (fun r => (r.2, r.1))

/-- `m > current` for the running-maximum accumulators seeded with
`float('-inf')`: anything exceeds negative infinity. -/
def PyF.ltVal : PyF → ℝ → Prop
  | .neginf, _ => True
  | .val m, v => m < v

noncomputable instance (m : PyF) (v : ℝ) : Decidable (m.ltVal v) :=
  match m with
  | .neginf => .isTrue trivial
  | .val x => inferInstanceAs (Decidable (x < v))

/-- Result triple of `LAeqAggregator.aggregate_lday`. -/
structure LdayResult where
  max_laeq : PyF
  timestamp_lday_ro : Option ℤ
  lday_eu : Option ℝ

/-- The 13 sliding 6-hour windows `07:00 + 30·i` to `13:00 + 30·i`
(minutes `420 + 30·i` to `780 + 30·i`), laeq_aggregator.py lines 122-124. -/
def ldayIntervals : List (ℤ × ℤ) :=
  (List.range 13).map fun i => (420 + 30 * (i : ℤ), 420 + 30 * (i : ℤ) + 360)

/-- One iteration of the `for start, end in intervals` loop of
`aggregate_lday` (lines 131-137): if the window has data and its LAeq
exceeds the running maximum, update the maximum and its window start. -/
noncomputable def ldayStep (tbl : Table) (acc : PyF × Option ℤ) (iv : ℤ × ℤ) :
    PyF × Option ℤ :=
  let sound_levels := fetch_records tbl iv.1 iv.2
  if sound_levels.isEmpty then acc
  else
    match LAeqAggregator.calculate_laeq sound_levels with
    | some v => if acc.1.ltVal v then (.val v, some iv.1) else acc
    | none => acc

/-- `LAeqAggregator.aggregate_lday`, laeq_aggregator.py lines 120-156:
`lday_ro` is the maximum LAeq over the 13 sliding windows (seeded with
`float('-inf')`); `lday_eu` is the LAeq over `07:00`-`19:00` (minutes 420
to 1140) when that window has rows, else `None`. -/
noncomputable def LAeqAggregator.aggregate_lday (tbl : Table) : LdayResult :=
  { max_laeq := (ldayIntervals.foldl (ldayStep tbl) (PyF.neginf, none)).1
    timestamp_lday_ro := (ldayIntervals.foldl (ldayStep tbl) (PyF.neginf, none)).2
    lday_eu :=
      if (fetch_records tbl 420 1140).isEmpty then none
      else LAeqAggregator.calculate_laeq (fetch_records tbl 420 1140) }

/-- Result triple of `LAeqAggregator.aggregate_levening`. -/
structure LeveningResult where
  levening_ro : PyF
  timestamp_levening_ro : Option ℤ
  levening_eu : Option ℝ

/-- The maximum-with-timestamp loop of `aggregate_levening` / `aggregate_lnight`
(`if level > acc: update`, strict comparison keeps the earliest maximum). -/
noncomputable def maxWithTs (pairs : List (ℚ × ℤ)) : PyF × Option ℤ :=
  pairs.foldl
    (fun acc p => if acc.1.ltVal (p.1 : ℝ) then (.val (p.1 : ℝ), some p.2) else acc)
    (PyF.neginf, none)

/-- `LAeqAggregator.aggregate_levening`, laeq_aggregator.py lines 158-185:
source `LAeq15min`, range `19:00`-`22:45` (minutes 1140 to 1365);
`levening_ro` is the largest single value with its timestamp, `levening_eu`
the LAeq of all values when the range has rows, else `None`. -/
noncomputable def LAeqAggregator.aggregate_levening (tbl : Table) : LeveningResult :=
  { levening_ro := (maxWithTs (fetch_records_with_timestamps tbl 1140 1365)).1
    timestamp_levening_ro := (maxWithTs (fetch_records_with_timestamps tbl 1140 1365)).2
    levening_eu :=
      if (fetch_records_with_timestamps tbl 1140 1365).isEmpty then none
      else LAeqAggregator.calculate_laeq
        ((fetch_records_with_timestamps tbl 1140 1365).map (·.1)) }

/-- Result triple of `LAeqAggregator.aggregate_lnight`. -/
structure LnightResult where
  lnight_ro : PyF
  timestamp_lnight_ro : Option ℤ
  lnight_eu : Option ℝ

/-- `LAeqAggregator.aggregate_lnight`, laeq_aggregator.py lines 187-214:
source `LAeq30min`, range yesterday `23:00` to today `06:30` (minutes -60
to 390); same shape as the evening aggregation. -/
noncomputable def LAeqAggregator.aggregate_lnight (tbl : Table) : LnightResult :=
  { lnight_ro := (maxWithTs (fetch_records_with_timestamps tbl (-60) 390)).1
    timestamp_lnight_ro := (maxWithTs (fetch_records_with_timestamps tbl (-60) 390)).2
    lnight_eu :=
      if (fetch_records_with_timestamps tbl (-60) 390).isEmpty then none
      else LAeqAggregator.calculate_laeq
        ((fetch_records_with_timestamps tbl (-60) 390).map (·.1)) }

/-- `LAeqAggregator.aggregate_lden`, laeq_aggregator.py lines 45-66: compute
the three component triples, build `lden_ro` from the `_ro` floats (never
`None`, possibly `-inf`) and `lden_eu` from the `_eu` options; insert one
`Lden` row (modelled by its `(lden_ro, lden_eu)` pair; the inserted row also
carries the component levels and timestamps) only when both are non-`None`,
otherwise log and write nothing. -/
noncomputable def LAeqAggregator.aggregate_lden (t1h t15 t30 : Table) :
    Option (PyF × PyF) :=
  match
    LAeqAggregator.calculate_lden
      (some (LAeqAggregator.aggregate_lday t1h).max_laeq)
      (some (LAeqAggregator.aggregate_levening t15).levening_ro)
      (some (LAeqAggregator.aggregate_lnight t30).lnight_ro),
    LAeqAggregator.calculate_lden
      ((LAeqAggregator.aggregate_lday t1h).lday_eu.map PyF.val)
      ((LAeqAggregator.aggregate_levening t15).levening_eu.map PyF.val)
      ((LAeqAggregator.aggregate_lnight t30).lnight_eu.map PyF.val) with
  | some r, some u => some (r, u)
  | _, _ => none

/-! ## Uncertainty calculator (incertitude_calculator.py)

Database reads are abstracted as inputs: for each of the three quantities,
the list of per-group `(LAeq values, LAF background values)` pairs that
`compute_groups_components` would fetch for the four group windows, in
iteration order.  LAeq group values come from validated rows (rationals);
the LAF background list may contain non-finite floats, which
`compute_l90_from_group` filters. -/

/-- `IncertitudeCalculator.compute_group_uncertainty`, lines 235-270:
below two values return `(0.0, None)`; otherwise convert to energies
`10 ** (0.1 * v)`, average, set `enav := 1 * log10(e_bar)` (the source's
literal formula), and derive the group uncertainty `uk` from the standard
deviation of the energies around `10 ** (0.1 * enav)`. -/
noncomputable def IncertitudeCalculator.compute_group_uncertainty
    (values : List ℚ) (count : ℕ) : ℝ × Option ℝ :=
  if count < 2 then (0, none)
  else
    let energies := values.map fun v => (10 : ℝ) ^ (0.1 * (v : ℝ))
    let e_bar := energies.sum / (count : ℝ)
    let enav := 1 * Real.logb 10 e_bar
    let enav_energy := (10 : ℝ) ^ (0.1 * enav)
    let squared_diffs := values.map fun v => ((10 : ℝ) ^ (0.1 * (v : ℝ)) - enav_energy) ^ 2
    let sk := Real.sqrt (squared_diffs.sum / ((count : ℝ) - 1))
    let uk := 10 * Real.logb 10 (enav_energy + sk) - enav
    (uk, some enav)

/-- `IncertitudeCalculator.compute_l90_from_group`, lines 272-296: `None` on
an empty list, drop non-finite values, `None` when nothing is left, else
`round(np.percentile(values, 90), 2)`. -/
def IncertitudeCalculator.compute_l90_from_group (values : List PyVal) : Option ℚ :=
  if values.isEmpty then none
  else
    let vals := finiteVals values
    if vals.length = 0 then none
    else some (round2q (numpyPercentile (List.insertionSort (· ≤ ·) vals) 90))

/-- `IncertitudeCalculator.compute_expanded_uncertainty`, lines 298-339:
returns `None` below two samples.  With `lres = None` the arithmetic
`0.1 * lres` raises `TypeError`; `math.log10` of a non-positive corrected
energy raises `ValueError`.  Otherwise returns
`(lk, u_k_prime, ures, cl_prime, cl_res, ulk, weighted_energy)`.
(`enav = None` cannot reach the arithmetic: it coincides with `count < 2`.) -/
noncomputable def IncertitudeCalculator.compute_expanded_uncertainty
    (enav : Option ℝ) (uk : ℝ) (count : ℕ) (lres : Option ℚ) :
    Except PyErr (Option (ℝ × ℝ × ℝ × ℝ × ℝ × ℝ × ℝ)) :=
  if count < 2 then .ok none
  else
    match enav, lres with
    | some en, some lr =>
        let u_k_prime := uk / Real.sqrt (count : ℝ)
        let ures := 4 / Real.sqrt (count : ℝ)
        if (10 : ℝ) ^ (0.1 * en) - (10 : ℝ) ^ (0.1 * (lr : ℝ)) ≤ 0 then
          .error .valueError
        else
          let lk := 10 * Real.logb 10 ((10 : ℝ) ^ (0.1 * en) - (10 : ℝ) ^ (0.1 * (lr : ℝ)))
          let cl_prime := 1 / (1 - (10 : ℝ) ^ (-0.1 * (en - (lr : ℝ))))
          let cl_res := cl_prime * (10 : ℝ) ^ (-0.1 * (en - (lr : ℝ)))
          let ulk := Real.sqrt (cl_prime ^ 2 * u_k_prime ^ 2 + cl_res ^ 2 * ures ^ 2)
          let weighted_energy := (10 : ℝ) ^ (0.1 * lk) * 0.25
          .ok (some (lk, u_k_prime, ures, cl_prime, cl_res, ulk, weighted_energy))
    | _, _ => .error .typeError

/-- One entry of the `grouped_result` dictionary built by
`compute_groups_components` (lines 190-202). -/
structure GroupEntry where
  values : List ℚ
  count : ℕ
  enav : Option ℝ
  lres : Option ℚ
  lk : ℝ
  u_k_prime : ℝ
  ures : ℝ
  cl_prime : ℝ
  cl_res : ℝ
  ulk : ℝ
  weighted_energy : ℝ

/-- The `for group_name, (group_start, group_end) in group_intervals` loop of
`compute_groups_components` (lines 173-202), with the fetched
`(values, p_values)` of each group as input.  An empty `values` list is the
source's `return None`; unpacking the `None` that
`compute_expanded_uncertainty` returns below two samples raises `TypeError`
(line 188). -/
noncomputable def groupsLoop (groups : List (List ℚ × List PyVal)) :
    Except PyErr (Option (List GroupEntry)) :=
  match groups with
  | [] => .ok (some [])
  | (values, p_values) :: rest =>
      if values.isEmpty then .ok none
      else
        let count := values.length
        let r := IncertitudeCalculator.compute_group_uncertainty values count
        let lres := IncertitudeCalculator.compute_l90_from_group p_values
        match IncertitudeCalculator.compute_expanded_uncertainty r.2 r.1 count lres with
        | .error e => .error e
        | .ok none => .error .typeError
        | .ok (some (lk, ukp, ures, clp, clr, ulk, we)) =>
            match groupsLoop rest with
            | .error e => .error e
            | .ok none => .ok none
            | .ok (some gs) =>
                .ok (some (⟨values, count, r.2, lres, lk, ukp, ures, clp, clr, ulk, we⟩ :: gs))

/-- `IncertitudeCalculator.compute_groups_components`, lines 167-202: run the
group loop — but the Python function body ends at the last loop statement
with NO return statement, so on every non-aborting, non-raising path it
falls off the end and returns `None`; the built `grouped_result` dictionary
is discarded. -/
noncomputable def IncertitudeCalculator.compute_groups_components
    (groups : List (List ℚ × List PyVal)) : Except PyErr (Option (List GroupEntry)) :=
  match groupsLoop groups with
  | .error e => .error e
  | .ok _ => .ok none

/-- `IncertitudeCalculator.compute_final_uncertainty_interval`, lines 204-233:
total energy, per-group weight fractions `cl`, `cp` weights from
`lk_energy = 10 ** (0.1 * lk)`, combined `u_weight` with `upi = 0.05`, and
finally `(l_ref, u_ref, u_weight)` with `l_ref = l + 1.0` and
`u_ref = sqrt(u_weight² + 0.2²)`.  (The per-group `weighted_energy` values
are positive, so the divisions cannot raise.) -/
noncomputable def IncertitudeCalculator.compute_final_uncertainty_interval
    (gs : List GroupEntry) (lday : ℝ) : ℝ × ℝ × ℝ :=
  let total_energy := (gs.map (·.weighted_energy)).sum
  let log_factor := 10 * Real.logb 10 2.7
  let u_weight := Real.sqrt
    ((gs.map fun g => g.ulk ^ 2 * (g.weighted_energy / total_energy) ^ 2).sum
      + (gs.map fun g =>
          (log_factor * ((10 : ℝ) ^ (0.1 * g.lk) / total_energy)) ^ 2 * 0.05 ^ 2).sum)
  (lday + 1.0, Real.sqrt (u_weight ^ 2 + 0.2 ^ 2), u_weight)

/-- The shared body of `compute_lday_temporal_uncertainty` (lines 51-86),
`compute_levening_temporal_uncertainty` (lines 88-121) and
`compute_lnight_temporal_uncertainty` (lines 124-164): the three methods
differ only in the group windows (abstracted into `groups`) and logging.
When `compute_groups_components` yields `None` or fewer than four groups the
method logs and returns `None`; otherwise it returns
`(l_ref, u_ref)` from `compute_final_uncertainty_interval`. -/
noncomputable def IncertitudeCalculator.compute_temporal_uncertainty
    (groups : List (List ℚ × List PyVal)) (level : ℝ) : Except PyErr (Option (ℝ × ℝ)) :=
  match IncertitudeCalculator.compute_groups_components groups with
  | .error e => .error e
  | .ok none => .ok none
  | .ok (some gs) =>
      if gs.length < 4 then .ok none
      else
        .ok (some ((IncertitudeCalculator.compute_final_uncertainty_interval gs level).1,
          (IncertitudeCalculator.compute_final_uncertainty_interval gs level).2.1))

/-- `IncertitudeCalculator.compute_lden_uncertainty`, lines 342-364. -/
noncomputable def IncertitudeCalculator.compute_lden_uncertainty
    (lday_ref uday_ref levening_ref uevening_ref lnight_ref unight_ref : ℝ) : ℝ :=
  let A := 12 * (10 : ℝ) ^ (0.1 * lday_ref)
  let B := 4 * (10 : ℝ) ^ (0.1 * (levening_ref + 5))
  let C := 8 * (10 : ℝ) ^ (0.1 * (lnight_ref + 10))
  round2 (Real.sqrt (A ^ 2 * uday_ref ^ 2 + B ^ 2 * uevening_ref ^ 2
    + C ^ 2 * unight_ref ^ 2) / (A + B + C))

/-- The database state the 24h callback of the uncertainty calculator reads:
the `Lden` row for the boundary (or `None`), and the per-group fetches for
each of the three quantities. -/
structure IncertitudeInput where
  ldenRow : Option (Option ℚ × Option ℚ × Option ℚ)
  dayGroups : List (List ℚ × List PyVal)
  eveningGroups : List (List ℚ × List PyVal)
  nightGroups : List (List ℚ × List PyVal)

/-- `IncertitudeCalculator.fetch_lden_components`, lines 366-386: a missing
row yields `(None, None, None)`; otherwise the row's three columns. -/
def IncertitudeCalculator.fetch_lden_components
    (row : Option (Option ℚ × Option ℚ × Option ℚ)) :
    Option ℚ × Option ℚ × Option ℚ :=
  match row with
  | none => (none, none, none)
  | some r => r

/-- `IncertitudeCalculator.notifyAboutInterval`, lines 23-49: after the 25 s
grace, read the `lday_eu, levening_eu, lnight_eu` columns and abort when any
is missing; otherwise unpack the result of each `compute_*_temporal_uncertainty`
into a pair — unpacking `None` raises `TypeError` — and finally insert
`compute_lden_uncertainty(...)` into `U_Lden`.  The result is the written
value (if any) or the raised exception.  `notifyBody` is the part after the
abort check: the `lday_ref, uday_ref = await ...` unpacking chain and the
final insert. -/
noncomputable def IncertitudeCalculator.notifyBody (inp : IncertitudeInput)
    (lday levening lnight : ℚ) : Except PyErr (Option ℝ) :=
  match IncertitudeCalculator.compute_temporal_uncertainty inp.dayGroups (lday : ℝ) with
  | .error e => .error e
  | .ok none => .error .typeError
  | .ok (some d) =>
      match IncertitudeCalculator.compute_temporal_uncertainty
          inp.eveningGroups (levening : ℝ) with
      | .error e => .error e
      | .ok none => .error .typeError
      | .ok (some e) =>
          match IncertitudeCalculator.compute_temporal_uncertainty
              inp.nightGroups (lnight : ℝ) with
          | .error e => .error e
          | .ok none => .error .typeError
          | .ok (some n) =>
              .ok (some (IncertitudeCalculator.compute_lden_uncertainty
                d.1 d.2 e.1 e.2 n.1 n.2))

/-- The abort check of `notifyAboutInterval` (line 32): when any fetched
component is `None`, log and return without writing; otherwise run the body. -/
noncomputable def IncertitudeCalculator.notifyAboutInterval
    (inp : IncertitudeInput) : Except PyErr (Option ℝ) :=
  match IncertitudeCalculator.fetch_lden_components inp.ldenRow with
  | (some lday, some levening, some lnight) =>
      IncertitudeCalculator.notifyBody inp lday levening lnight
  | _ => .ok none

/-- The `U_Lden` rows an invocation of the 24h callback writes: one on a
successful insert, none on an abort or a raised exception. -/
noncomputable def uldenWrites (r : Except PyErr (Option ℝ)) : List ℝ :=
  match r with
  | .ok (some v) => [v]
  | _ => []

/-! ## Interval scheduler timing (aggregation/time_manager.py)

`TimeManager._notify_subscribers` (lines 30-49) runs
`for subscriber in subscribers: await subscriber.notifyAboutInterval(...)`:
each callback coroutine is awaited to completion before the next one starts
(no `create_task`).  `TimeManager.start` (lines 17-28) awaits `_tick()` and
then `asyncio.sleep(1)`, so the next boundary check happens only after every
subscriber of the fired boundary has finished.  We model the wall-clock
seconds at which each subscriber's callback begins, given the boundary time
and the running time of each callback. -/

/-- The instant each subscriber's `notifyAboutInterval` begins when the
boundary fires at `t` and the callbacks take `durations` seconds: each is
awaited to completion before the next is invoked. -/
def TimeManager.notifyStartTimes (t : ℕ) : List ℕ → List ℕ
  | [] => []
  | d :: ds => t :: TimeManager.notifyStartTimes (t + d) ds

/-- The instant `_tick` returns to `start`, after which the scheduler sleeps
one second before checking the next boundary. -/
def TimeManager.tickFinishTime (t : ℕ) (durations : List ℕ) : ℕ :=
  t + durations.sum

/-! ## Sampler loop (acquisition/acoustic_stream.py)

One iteration of the `while self.run_flag` loop of `AcousticStream._run_loop`
(lines 72-133): `base_time := last_cycle_start`; collect up to
`samples_per_second` readings (reads that raise are caught and skipped); if
fewer than `samples_per_second` were collected, log a warning and `continue`
— which jumps back to the loop head WITHOUT executing the trailing
`last_cycle_start = base_time + timedelta(seconds=1)` — otherwise write the
second's rows (timestamped `base_time`; modelled as one write event) and
advance `last_cycle_start` by one second. -/

/-- The sampler loop state: the base timestamp of the next cycle (epoch
seconds) and the timestamps of the rows written so far. -/
structure StreamState where
  lastCycleStart : ℤ
  written : List ℤ
deriving DecidableEq, Repr

/-- One loop iteration of `AcousticStream._run_loop`, with `collected` the
number of successful intra-second sample pairs of this cycle. -/
def AcousticStream.runCycle (samples_per_second : ℕ) (st : StreamState)
    (collected : ℕ) : StreamState :=
  if collected < samples_per_second then st
  else ⟨st.lastCycleStart + 1, st.written ++ [st.lastCycleStart]⟩

/-- Iterated loop cycles, one entry of `collecteds` per iteration. -/
def AcousticStream.runCycles (samples_per_second : ℕ) (st : StreamState)
    (collecteds : List ℕ) : StreamState :=
  collecteds.foldl (AcousticStream.runCycle samples_per_second) st

/-! ## Data synchroniser (database/mongodb/data_sync_manager.py)

Per-table transition system over the interleaving of the three loops of
`MySQLDataFetcher` for one fixed table:

* `fetchTable` — `fetch_table_data` (lines 156-188): only when
  `last_success` is true, select up to 3600 rows with `is_sent = 0`; when
  the result is non-empty, cache their ids in `pending_ids`, enqueue the
  batch, and set `last_success := false`.
* `discover` — one run of `discover_databases_and_tables` (lines 117-154)
  as scheduled by `recurring_discover`: besides re-sending the schema it
  unconditionally executes `self.last_success[table_name] = True`
  (line 152).
* `confirmNext` — the transfer side inserts the oldest queued batch into
  the remote store and emits `insert_success`
  (`MongoDBDataTransfer.insert_data`, lines 355-393), which the consumer
  handles with `mark_success` (lines 260-280): pop the cached
  `pending_ids`; when non-empty, set `is_sent = 1` on those rows and
  `last_success := true`, else only log. -/

/-- A local row for the synchroniser: its id and `is_sent` flag. -/
structure SyncRow where
  id : ℕ
  isSent : Bool
deriving DecidableEq, Repr

/-- The per-table synchroniser state. -/
structure SyncState where
  rows : List SyncRow
  lastSuccess : Bool
  pending : List ℕ
  queue : List (List ℕ)
  remote : List (List ℕ)
  fetchEvents : ℕ
  confirmEvents : ℕ
deriving DecidableEq, Repr

/-- An interleaving step of the three synchroniser loops. -/
inductive SyncAction where
  | fetchTable
  | discover
  | confirmNext
deriving DecidableEq, Repr

/-- The rows still unsent (`WHERE is_sent = 0`). -/
def SyncState.unsent (st : SyncState) : List SyncRow :=
  st.rows.filter fun r => !r.isSent

/-- One transition of the per-table synchroniser. -/
def syncStep (st : SyncState) : SyncAction → SyncState
  | .fetchTable =>
      if st.lastSuccess then
        let results := st.unsent.take 3600
        if results.isEmpty then st
        else
          ⟨st.rows, false, results.map (·.id), st.queue ++ [results.map (·.id)],
            st.remote, st.fetchEvents + 1, st.confirmEvents⟩
      else st
  | .discover => ⟨st.rows, true, st.pending, st.queue, st.remote,
      st.fetchEvents, st.confirmEvents⟩
  | .confirmNext =>
      match st.queue with
      | [] => st
      | b :: rest =>
          let ids := st.pending
          if ids.isEmpty then
            ⟨st.rows, st.lastSuccess, [], rest, st.remote ++ [b],
              st.fetchEvents, st.confirmEvents + 1⟩
          else
            ⟨st.rows.map fun r => if r.id ∈ ids then ⟨r.id, true⟩ else r,
              true, [], rest, st.remote ++ [b],
              st.fetchEvents, st.confirmEvents + 1⟩

/-- Run a sequence of interleaved steps. -/
def syncRun (st : SyncState) (acts : List SyncAction) : SyncState :=
  acts.foldl syncStep st

/-- The fetcher state right after `run`'s initial
`discover_databases_and_tables`: nothing pending, nothing queued, and
`last_success[table] = True`. -/
def syncInit (rows : List SyncRow) : SyncState :=
  ⟨rows, true, [], [], [], 0, 0⟩

/-! ## Theorems -/

/-- Claim C10: for every instant, `get_next_second_sleep_time` returns a
value strictly greater than 0 and at most 1, and exactly 1.0 when called at
a whole-second boundary, so an aligned caller sleeps one full extra second. -/
theorem c10_next_second_sleep_bounds (t : ℚ) :
    0 < TimestampProvider.get_next_second_sleep_time t ∧
    TimestampProvider.get_next_second_sleep_time t ≤ 1 ∧
    (Int.fract t = 0 → TimestampProvider.get_next_second_sleep_time t = 1) := by
  unfold TimestampProvider.get_next_second_sleep_time
  refine ⟨by linarith [Int.fract_lt_one t], by linarith [Int.fract_nonneg t], fun h => ?_⟩
  rw [h]
  ring

/-- Witness for C10 at the whole-second instant 7. -/
theorem c10_witness :
    0 < TimestampProvider.get_next_second_sleep_time 7 ∧
    TimestampProvider.get_next_second_sleep_time 7 ≤ 1 ∧
    (Int.fract (7 : ℚ) = 0 → TimestampProvider.get_next_second_sleep_time 7 = 1) :=
  c10_next_second_sleep_bounds 7

/-- Counterexample to claim C2: with two subscribers at boundary 0 whose
callbacks take 25 s and 0 s, the second subscriber is invoked at second 25,
not at the boundary, and the next boundary check happens at second 26 —
sequential awaiting in `_notify_subscribers` delays both. -/
theorem c2_counterexample :
    TimeManager.notifyStartTimes 0 [25, 0] = [0, 25] ∧
    ¬ (∀ s ∈ TimeManager.notifyStartTimes 0 [25, 0], s = 0) ∧
    TimeManager.tickFinishTime 0 [25, 0] + 1 = 26 := by
  decide

/-- Amended C2: subscriber invocations at a boundary are sequential, not
independently scheduled tasks: the i-th subscriber's callback starts only
after the callbacks of all earlier subscribers have completed, and the
scheduler's next boundary check happens one second after the last one
finishes. -/
theorem c2_sequential_notification (t : ℕ) (ds : List ℕ) (i : ℕ)
    (h : i < ds.length) :
    (TimeManager.notifyStartTimes t ds).getD i 0 = t + (ds.take i).sum ∧
    TimeManager.tickFinishTime t ds + 1 = t + ds.sum + 1 := by
  refine ⟨?_, rfl⟩
  induction ds generalizing t i with
  | nil => simp at h
  | cons d ds ih =>
      cases i with
      | zero => simp [TimeManager.notifyStartTimes]
      | succ j =>
          have hj : j < ds.length := by simpa using h
          simp only [TimeManager.notifyStartTimes, List.getD_cons_succ, List.take_succ_cons,
            List.sum_cons]
          rw [ih (t + d) j hj]
          ring

/-- Witness for the amended C2 at boundary 0 with callback durations 25 s
and 0 s. -/
theorem c2_witness :
    (TimeManager.notifyStartTimes 0 [25, 0]).getD 1 0 = 0 + ([25, 0].take 1).sum ∧
    TimeManager.tickFinishTime 0 [25, 0] + 1 = 0 + [25, 0].sum + 1 :=
  c2_sequential_notification 0 [25, 0] 1 (by decide)

/-- Counterexample to claim C3: a cycle with base second 0 that collects only
3 of 8 samples leaves `last_cycle_start` at 0 instead of advancing to 1, and
the following complete cycle writes a row with the skipped second's
timestamp 0 — the skipped second IS reused as a later cycle's base time. -/
theorem c3_counterexample :
    AcousticStream.runCycle 8 ⟨0, []⟩ 3 = ⟨0, []⟩ ∧
    (AcousticStream.runCycle 8 ⟨0, []⟩ 3).lastCycleStart ≠ 0 + 1 ∧
    AcousticStream.runCycles 8 ⟨0, []⟩ [3, 8] = ⟨1, [0]⟩ := by
  decide

/-- Amended C3: in a cycle with fewer than `1/τ` collected samples no row is
written, but `last_cycle_start` is NOT advanced: the loop retries the same
second (so its timestamp is the base of the next cycle, and a later complete
retry writes a row carrying it); the advance to `s + 1` happens only after a
cycle with a full sample set. -/
theorem c3_skip_retries_same_second (sps : ℕ) (st : StreamState) (c : ℕ) :
    (c < sps → AcousticStream.runCycle sps st c = st) ∧
    (sps ≤ c → AcousticStream.runCycle sps st c =
      ⟨st.lastCycleStart + 1, st.written ++ [st.lastCycleStart]⟩) := by
  unfold AcousticStream.runCycle
  exact ⟨fun h => if_pos h, fun h => if_neg (not_lt.mpr h)⟩

/-- Witness for the amended C3: a skipped cycle (3 of 8 samples) and a
complete cycle (8 of 8) from base second 0. -/
theorem c3_witness :
    AcousticStream.runCycle 8 ⟨0, []⟩ 3 = ⟨0, []⟩ ∧
    AcousticStream.runCycle 8 ⟨0, []⟩ 8 =
      ⟨(0 : ℤ) + 1, ([] : List ℤ) ++ [0]⟩ :=
  ⟨(c3_skip_retries_same_second 8 ⟨0, []⟩ 3).1 (by decide),
    (c3_skip_retries_same_second 8 ⟨0, []⟩ 8).2 (by decide)⟩

/-- Counterexample to claim C4: starting from one unsent row, the
interleaving fetch - discovery - fetch produces two fetch events with no
confirmation consumed in between: `discover_databases_and_tables` resets
`last_success[table] = True` (line 152) while a batch is still in flight, so
a second unconfirmed batch for the same table is fetched and enqueued. -/
theorem c4_counterexample :
    (syncRun (syncInit [⟨1, false⟩])
      [.fetchTable, .discover, .fetchTable]).fetchEvents = 2 ∧
    (syncRun (syncInit [⟨1, false⟩])
      [.fetchTable, .discover, .fetchTable]).confirmEvents = 0 ∧
    ¬ ((syncRun (syncInit [⟨1, false⟩])
        [.fetchTable, .discover, .fetchTable]).fetchEvents ≤
      (syncRun (syncInit [⟨1, false⟩])
        [.fetchTable, .discover, .fetchTable]).confirmEvents + 1) := by
  decide

/-- The invariant bound: the number of fetches never exceeds the number of
consumed confirmations, plus one when the table's `last_success` gate is
closed. -/
def syncOutstandingBound (st : SyncState) : ℕ :=
  st.confirmEvents + (bif st.lastSuccess then 0 else 1)

theorem syncStep_invariant (st : SyncState) (a : SyncAction)
    (ha : a ≠ SyncAction.discover)
    (h : st.fetchEvents ≤ syncOutstandingBound st) :
    (syncStep st a).fetchEvents ≤ syncOutstandingBound (syncStep st a) := by
  obtain ⟨rows, ls, pending, queue, remote, fe, ce⟩ := st
  cases a with
  | discover => exact absurd rfl ha
  | fetchTable =>
      cases ls with
      | false => simpa [syncStep, syncOutstandingBound] using h
      | true =>
          simp only [syncOutstandingBound, cond_true, Nat.add_zero] at h
          by_cases he :
            (List.take 3600 (SyncState.unsent ⟨rows, true, pending, queue, remote, fe, ce⟩)).isEmpty
          · simpa [syncStep, syncOutstandingBound, he] using h
          · simp only [syncStep, syncOutstandingBound, he] at h ⊢
            simp only [if_false, Bool.false_eq_true, cond_false, if_true]
            omega
  | confirmNext =>
      cases queue with
      | nil => simpa [syncStep, syncOutstandingBound] using h
      | cons b rest =>
          by_cases hp : pending.isEmpty
          · cases ls <;> simp only [syncOutstandingBound, cond_true, cond_false] at h <;>
              simp [syncStep, syncOutstandingBound, hp] <;> omega
          · cases ls <;> simp only [syncOutstandingBound, cond_true, cond_false] at h <;>
              simp [syncStep, syncOutstandingBound, hp] <;> omega

theorem syncRun_invariant (acts : List SyncAction) (st : SyncState)
    (hd : ∀ a ∈ acts, a ≠ SyncAction.discover)
    (h : st.fetchEvents ≤ syncOutstandingBound st) :
    (syncRun st acts).fetchEvents ≤ syncOutstandingBound (syncRun st acts) := by
  induction acts generalizing st with
  | nil => exact h
  | cons a acts ih =>
      have ha : a ≠ SyncAction.discover := hd a (List.mem_cons_self a acts)
      have hd2 : ∀ x ∈ acts, x ≠ SyncAction.discover :=
        fun x hx => hd x (List.mem_cons_of_mem a hx)
      exact ih (syncStep st a) hd2 (syncStep_invariant st a ha h)

/-- Amended C4: the single-outstanding-batch invariant holds for every
interleaving of the fetch loop and the confirmation consumer, PROVIDED no
run of the recurring discovery loop occurs: at every point of such a trace
at most one fetched batch is unconfirmed (fetch events exceed consumed
confirmations by at most one).  A discovery run re-opens the
`last_success` gate and breaks the invariant (see the counterexample). -/
theorem c4_single_outstanding_batch (rows : List SyncRow)
    (acts : List SyncAction) (hd : SyncAction.discover ∉ acts) (n : ℕ) :
    (syncRun (syncInit rows) (acts.take n)).fetchEvents ≤
      (syncRun (syncInit rows) (acts.take n)).confirmEvents + 1 := by
  have hd2 : ∀ a ∈ acts.take n, a ≠ SyncAction.discover := by
    intro a hmem heq
    exact hd (heq ▸ List.take_subset n acts hmem)
  have h0 : (syncInit rows).fetchEvents ≤ syncOutstandingBound (syncInit rows) := by
    simp [syncInit, syncOutstandingBound]
  have hinv := syncRun_invariant (acts.take n) (syncInit rows) hd2 h0
  unfold syncOutstandingBound at hinv
  have hb : (bif (syncRun (syncInit rows) (acts.take n)).lastSuccess then 0 else 1) ≤ 1 := by
    cases (syncRun (syncInit rows) (acts.take n)).lastSuccess <;> simp
  omega

/-- Witness for the amended C4: one row, trace fetch - confirm - fetch, no
discovery. -/
theorem c4_witness :
    SyncAction.discover ∉ ([.fetchTable, .confirmNext, .fetchTable] : List SyncAction) ∧
    (syncRun (syncInit [⟨1, false⟩])
      (([.fetchTable, .confirmNext, .fetchTable] : List SyncAction).take 3)).fetchEvents ≤
      (syncRun (syncInit [⟨1, false⟩])
        (([.fetchTable, .confirmNext, .fetchTable] : List SyncAction).take 3)).confirmEvents + 1 :=
  ⟨by decide, c4_single_outstanding_batch [⟨1, false⟩] [.fetchTable, .confirmNext, .fetchTable]
    (by decide) 3⟩

/-- `compute_groups_components` never produces a grouped result: its Python
body has no return statement after the loop, so every call either raises or
returns `None`. -/
theorem compute_groups_components_no_result (groups : List (List ℚ × List PyVal)) :
    IncertitudeCalculator.compute_groups_components groups = .ok none ∨
      ∃ e, IncertitudeCalculator.compute_groups_components groups = .error e := by
  unfold IncertitudeCalculator.compute_groups_components
  cases groupsLoop groups with
  | error e => exact Or.inr ⟨e, rfl⟩
  | ok v => exact Or.inl rfl

/-- Hence each `compute_*_temporal_uncertainty` either returns `None` (the
abort path) or propagates an exception. -/
theorem compute_temporal_no_result (groups : List (List ℚ × List PyVal)) (level : ℝ) :
    IncertitudeCalculator.compute_temporal_uncertainty groups level = .ok none ∨
      ∃ e, IncertitudeCalculator.compute_temporal_uncertainty groups level = .error e := by
  unfold IncertitudeCalculator.compute_temporal_uncertainty
  rcases compute_groups_components_no_result groups with h | ⟨e, h⟩ <;> rw [h]
  · exact Or.inl rfl
  · exact Or.inr ⟨e, rfl⟩

/-- Claim C1 (refuted by the code): the uncertainty calculator's 24h callback
never writes a `U_Lden` row — for EVERY database state, including those
satisfying all of the claim's conditions.  `compute_groups_components` lacks
a `return grouped_result`, so `compute_lday_temporal_uncertainty` always
aborts with `None`, whose unpacking in `notifyAboutInterval` raises
`TypeError` before `insert_aggregated_value` is reached. -/
theorem c1_ulden_never_written (inp : IncertitudeInput) :
    uldenWrites (IncertitudeCalculator.notifyAboutInterval inp) = [] := by
  have hbody : ∀ lday levening lnight : ℚ,
      uldenWrites (IncertitudeCalculator.notifyBody inp lday levening lnight) = [] := by
    intro lday levening lnight
    unfold IncertitudeCalculator.notifyBody
    rcases compute_temporal_no_result inp.dayGroups (lday : ℝ) with h | ⟨e, h⟩ <;>
      rw [h] <;> rfl
  unfold IncertitudeCalculator.notifyAboutInterval
  rcases hp : IncertitudeCalculator.fetch_lden_components inp.ldenRow with ⟨a, b, c⟩
  rcases a with _ | lday
  · rfl
  rcases b with _ | levening
  · rfl
  rcases c with _ | lnight
  · rfl
  exact hbody lday levening lnight

/-- Claim C5 (refuted by the code): for the two-value group `[60, 60]` the
source's `enav = 1 * math.log10(e_bar)` yields `6.0`, while the energy-average
LEVEL `10·log10(ē)` the claim (and the function's own docstring) describes is
`60.0`. -/
theorem c5_enav_is_plain_log10 :
    (IncertitudeCalculator.compute_group_uncertainty [60, 60] 2).2 = some 6 ∧
    10 * Real.logb 10
      (((10 : ℝ) ^ (0.1 * ((60 : ℚ) : ℝ)) + (10 : ℝ) ^ (0.1 * ((60 : ℚ) : ℝ))) / 2) = 60 ∧
    (6 : ℝ) ≠ 60 := by
  have hx : (0.1 : ℝ) * ((60 : ℚ) : ℝ) = (6 : ℝ) := by norm_num
  have hsum : ((10 : ℝ) ^ (6 : ℝ) + (10 : ℝ) ^ (6 : ℝ)) / 2 = (10 : ℝ) ^ (6 : ℝ) := by ring
  have hlogb : Real.logb 10 ((10 : ℝ) ^ (6 : ℝ)) = 6 :=
    Real.logb_rpow (by norm_num) (by norm_num)
  refine ⟨?_, ?_, by norm_num⟩
  · unfold IncertitudeCalculator.compute_group_uncertainty
    rw [if_neg (by norm_num)]
    simp only [List.map_cons, List.map_nil, List.sum_cons, List.sum_nil, add_zero,
      Nat.cast_ofNat, hx, hsum, hlogb]
    norm_num [hsum, hlogb]
    rw [show (1000000 : ℝ) = (10 : ℝ) ^ (6 : ℕ) from by norm_num, Real.logb_pow,
      Real.logb_self_eq_one (by norm_num)]
    norm_num
  · rw [hx, hsum, hlogb]
    norm_num

/-- Claim C6: `calculate_lden` computes exactly the Lden composite formula
rounded to two decimals, and `calculate_lden(60, 55, 50) = 60.00`. -/
theorem c6_lden_formula :
    (∀ x y z : ℝ,
      LAeqAggregator.calculate_lden (some (.val x)) (some (.val y)) (some (.val z)) =
        some (.val (round2 (10 * Real.logb 10
          (12 / 24 * (10 : ℝ) ^ (x / 10) + 4 / 24 * (10 : ℝ) ^ ((y + 5) / 10)
            + 8 / 24 * (10 : ℝ) ^ ((z + 10) / 10)))))) ∧
    LAeqAggregator.calculate_lden (some (.val 60)) (some (.val 55)) (some (.val 50)) =
      some (.val 60) := by
  have key : ∀ x y z : ℝ,
      LAeqAggregator.calculate_lden (some (.val x)) (some (.val y)) (some (.val z)) =
        some (.val (round2 (10 * Real.logb 10
          (12 / 24 * (10 : ℝ) ^ (x / 10) + 4 / 24 * (10 : ℝ) ^ ((y + 5) / 10)
            + 8 / 24 * (10 : ℝ) ^ ((z + 10) / 10))))) := by
    intro x y z
    have hpos : (0 : ℝ) < 12 / 24 * (10 : ℝ) ^ (x / 10) + 4 / 24 * (10 : ℝ) ^ ((y + 5) / 10)
        + 8 / 24 * (10 : ℝ) ^ ((z + 10) / 10) := by positivity
    unfold LAeqAggregator.calculate_lden
    simp only [PyF.addF, PyF.pow10div10]
    rw [tenLog10, if_neg (ne_of_gt hpos)]
    rfl
  refine ⟨key, ?_⟩
  rw [key 60 55 50]
  have e1 : (60 : ℝ) / 10 = (6 : ℝ) := by norm_num
  have e2 : ((55 : ℝ) + 5) / 10 = (6 : ℝ) := by norm_num
  have e3 : ((50 : ℝ) + 10) / 10 = (6 : ℝ) := by norm_num
  rw [e1, e2, e3]
  rw [show 12 / 24 * (10 : ℝ) ^ (6 : ℝ) + 4 / 24 * (10 : ℝ) ^ (6 : ℝ)
      + 8 / 24 * (10 : ℝ) ^ (6 : ℝ) = (10 : ℝ) ^ (6 : ℝ) from by ring]
  rw [Real.logb_rpow (by norm_num) (by norm_num)]
  unfold round2
  norm_num [round_eq]

/-- Evaluation rule for `numpyPercentile`: with the virtual rank `r`, its
floor `i`, and the two bracketing sorted values `lo` and `hi`, the percentile
is the linear interpolation between them. -/
theorem numpyPercentile_eval (s : List ℚ) (q : ℚ) (i : ℕ) (r lo hi : ℚ)
    (hr : q * ((s.length : ℚ) - 1) / 100 = r) (hf : ⌊r⌋ = (i : ℤ))
    (hlo : s.getD i 0 = lo) (hhi : s.getD (i + 1) lo = hi) :
    numpyPercentile s q = lo + (r - (i : ℚ)) * (hi - lo) := by
  simp only [numpyPercentile, hr, hf, Int.toNat_natCast, hlo, hhi]
  push_cast
  ring

/-- Claim C7: `calculate_percentiles` drops non-finite values (the result
only depends on the finite entries) and maps `L5, L10, L50, L90, L95` to
the 95th, 90th, 50th, 10th and 5th linear-interpolation percentiles rounded
to two decimals; on `[10, 20, ..., 100]` it returns `L50 = 55.00`,
`L90 = 19.00`, `L10 = 91.00` (and `L5 = 95.5`, `L95 = 14.5`). -/
theorem c7_percentile_labels :
    (∀ values : List PyVal, values ≠ [] → finiteVals values ≠ [] →
      LAFAggregator.calculate_percentiles values =
        some { L5 := round2q (numpyPercentile
                 (List.insertionSort (· ≤ ·) (finiteVals values)) 95)
               L10 := round2q (numpyPercentile
                 (List.insertionSort (· ≤ ·) (finiteVals values)) 90)
               L50 := round2q (numpyPercentile
                 (List.insertionSort (· ≤ ·) (finiteVals values)) 50)
               L90 := round2q (numpyPercentile
                 (List.insertionSort (· ≤ ·) (finiteVals values)) 10)
               L95 := round2q (numpyPercentile
                 (List.insertionSort (· ≤ ·) (finiteVals values)) 5) }) ∧
    LAFAggregator.calculate_percentiles
        (([10, 20, 30, 40, 50, 60, 70, 80, 90, 100] : List ℚ).map PyVal.num) =
      some ⟨95.5, 91, 55, 19, 14.5⟩ := by
  have key : ∀ values : List PyVal, values ≠ [] → finiteVals values ≠ [] →
      LAFAggregator.calculate_percentiles values =
        some { L5 := round2q (numpyPercentile
                 (List.insertionSort (· ≤ ·) (finiteVals values)) 95)
               L10 := round2q (numpyPercentile
                 (List.insertionSort (· ≤ ·) (finiteVals values)) 90)
               L50 := round2q (numpyPercentile
                 (List.insertionSort (· ≤ ·) (finiteVals values)) 50)
               L90 := round2q (numpyPercentile
                 (List.insertionSort (· ≤ ·) (finiteVals values)) 10)
               L95 := round2q (numpyPercentile
                 (List.insertionSort (· ≤ ·) (finiteVals values)) 5) } := by
    intro values h1 h2
    simp only [LAFAggregator.calculate_percentiles]
    rw [if_neg (by simp [List.isEmpty_iff, h1]),
      if_neg (by simpa [List.length_eq_zero] using h2)]
  refine ⟨key, ?_⟩
  rw [key _ (by decide) (by decide)]
  rw [show List.insertionSort (· ≤ ·)
      (finiteVals (([10, 20, 30, 40, 50, 60, 70, 80, 90, 100] : List ℚ).map PyVal.num)) =
      ([10, 20, 30, 40, 50, 60, 70, 80, 90, 100] : List ℚ) from rfl]
  rw [numpyPercentile_eval ([10, 20, 30, 40, 50, 60, 70, 80, 90, 100] : List ℚ)
      95 8 (171 / 20) 90 100 (by norm_num) (by norm_num [Int.floor_eq_iff]) rfl rfl,
    numpyPercentile_eval ([10, 20, 30, 40, 50, 60, 70, 80, 90, 100] : List ℚ)
      90 8 (81 / 10) 90 100 (by norm_num) (by norm_num [Int.floor_eq_iff]) rfl rfl,
    numpyPercentile_eval ([10, 20, 30, 40, 50, 60, 70, 80, 90, 100] : List ℚ)
      50 4 (9 / 2) 50 60 (by norm_num) (by norm_num [Int.floor_eq_iff]) rfl rfl,
    numpyPercentile_eval ([10, 20, 30, 40, 50, 60, 70, 80, 90, 100] : List ℚ)
      10 0 (9 / 10) 10 20 (by norm_num) (by norm_num [Int.floor_eq_iff]) rfl rfl,
    numpyPercentile_eval ([10, 20, 30, 40, 50, 60, 70, 80, 90, 100] : List ℚ)
      5 0 (9 / 20) 10 20 (by norm_num) (by norm_num [Int.floor_eq_iff]) rfl rfl]
  norm_num [round2q, round_eq, Int.floor_eq_iff]

/-- Witness for C7 on the singleton list `[10]`. -/
theorem c7_witness :
    LAFAggregator.calculate_percentiles [PyVal.num 10] =
      some { L5 := round2q (numpyPercentile
               (List.insertionSort (· ≤ ·) (finiteVals [PyVal.num 10])) 95)
             L10 := round2q (numpyPercentile
               (List.insertionSort (· ≤ ·) (finiteVals [PyVal.num 10])) 90)
             L50 := round2q (numpyPercentile
               (List.insertionSort (· ≤ ·) (finiteVals [PyVal.num 10])) 50)
             L90 := round2q (numpyPercentile
               (List.insertionSort (· ≤ ·) (finiteVals [PyVal.num 10])) 10)
             L95 := round2q (numpyPercentile
               (List.insertionSort (· ≤ ·) (finiteVals [PyVal.num 10])) 5) } :=
  c7_percentile_labels.1 [PyVal.num 10] (by decide) (by decide)

/-- `calculate_lden` writes nothing as soon as one component is `None`. -/
theorem calculate_lden_eq_none (a b c : Option PyF)
    (h : a = none ∨ b = none ∨ c = none) :
    LAeqAggregator.calculate_lden a b c = none := by
  rcases a with _ | x <;> rcases b with _ | y <;> rcases c with _ | z <;>
    first
      | rfl
      | simp_all

/-- Claim C8: at a 24h boundary, if any of the three source windows of the
Lden computation contains no rows — making the corresponding `_eu`
component `None` (and the `_ro` maximum `-inf`) — then `aggregate_lden`
inserts no row into the `Lden` table. -/
theorem c8_missing_component_no_lden_row (t1h t15 t30 : Table)
    (h : fetch_records t1h 420 1140 = [] ∨
      fetch_records_with_timestamps t15 1140 1365 = [] ∨
      fetch_records_with_timestamps t30 (-60) 390 = []) :
    LAeqAggregator.aggregate_lden t1h t15 t30 = none := by
  have heu : LAeqAggregator.calculate_lden
      ((LAeqAggregator.aggregate_lday t1h).lday_eu.map PyF.val)
      ((LAeqAggregator.aggregate_levening t15).levening_eu.map PyF.val)
      ((LAeqAggregator.aggregate_lnight t30).lnight_eu.map PyF.val) = none := by
    apply calculate_lden_eq_none
    rcases h with h | h | h
    · exact Or.inl (by simp [LAeqAggregator.aggregate_lday, h])
    · exact Or.inr (Or.inl (by simp [LAeqAggregator.aggregate_levening, h]))
    · exact Or.inr (Or.inr (by simp [LAeqAggregator.aggregate_lnight, h]))
  unfold LAeqAggregator.aggregate_lden
  rw [heu]
  cases LAeqAggregator.calculate_lden
      (some (LAeqAggregator.aggregate_lday t1h).max_laeq)
      (some (LAeqAggregator.aggregate_levening t15).levening_ro)
      (some (LAeqAggregator.aggregate_lnight t30).lnight_ro) <;> rfl

/-- Witness for C8: an empty `LAeq15min` table (and non-empty day and night
sources) produces no `Lden` row. -/
theorem c8_witness :
    fetch_records_with_timestamps ([] : Table) 1140 1365 = [] ∧
    LAeqAggregator.aggregate_lden [((480 : ℤ), (60 : ℚ))] ([] : Table)
      [((0 : ℤ), (50 : ℚ))] = none :=
  ⟨rfl, c8_missing_component_no_lden_row [((480 : ℤ), (60 : ℚ))] ([] : Table)
    [((0 : ℤ), (50 : ℚ))] (Or.inr (Or.inl rfl))⟩

/-- Embedding finite floats into `PyVal` and filtering them back out is the
identity. -/
theorem finiteVals_map_num (l : List ℚ) : finiteVals (l.map PyVal.num) = l := by
  induction l with
  | nil => rfl
  | cons a t ih =>
      simp only [finiteVals, List.map_cons, List.filterMap_cons] at ih ⊢
      rw [ih]

/-- Claim C9: on any non-empty list of finite values the sampler-side
`calculate_laeq` (acquisition/help_functions/average.py) and the
aggregator-side `LAeqAggregator.calculate_laeq` agree, both computing
`round(10·log10(mean(10^(x/10))), 2)`, and both return `None` on the empty
list. -/
theorem c9_laeq_agreement :
    (∀ l : List ℚ, l ≠ [] →
      Acquisition.calculate_laeq (l.map PyVal.num) = LAeqAggregator.calculate_laeq l ∧
      LAeqAggregator.calculate_laeq l = some (round2 (10 * Real.logb 10
        ((l.map fun v => (10 : ℝ) ^ ((v : ℝ) / 10)).sum / (l.length : ℝ))))) ∧
    Acquisition.calculate_laeq [] = none ∧
    LAeqAggregator.calculate_laeq [] = none := by
  refine ⟨?_, rfl, rfl⟩
  intro l hl
  have hpos : 0 < l.length := List.length_pos.mpr hl
  constructor
  · simp only [Acquisition.calculate_laeq, LAeqAggregator.calculate_laeq,
      finiteVals_map_num]
    rw [if_neg (by simp [List.isEmpty_iff, hl]),
      if_neg (by simpa [List.length_eq_zero] using hl), if_pos hpos]
  · simp only [LAeqAggregator.calculate_laeq]
    rw [if_pos hpos]

/-- Witness for C9 on the one-element list `[60]`. -/
theorem c9_witness :
    Acquisition.calculate_laeq ([(60 : ℚ)].map PyVal.num) =
      LAeqAggregator.calculate_laeq [(60 : ℚ)] ∧
    LAeqAggregator.calculate_laeq [(60 : ℚ)] = some (round2 (10 * Real.logb 10
      ((([(60 : ℚ)]).map fun v => (10 : ℝ) ^ ((v : ℝ) / 10)).sum /
        (([(60 : ℚ)]).length : ℝ)))) :=
  c9_laeq_agreement.1 [(60 : ℚ)] (by decide)

end PiSoundLogger
